import Mathlib

/-!
Verification development for the `react-three-fiber-portfolio` repository,
centred on the PixelArt page (`src/pages/PixelArt.tsx`): the image sampler
`createPixelData`, the staged reveal animation, the displacement (explosion /
wave) animation, the timer-driven animation-mode transitions, and the
file-selection handler.

JavaScript numbers are modelled as rationals (`ℚ`); per-cell RGBA channel
values read back from the canvas are natural numbers (bytes 0..255 in the
browser, though nothing below depends on an upper bound).  The raster data of
the offscreen canvas is modelled as a total function from cell coordinates to
RGBA values.
-/

namespace PixelArt

/-- One RGBA sample of the offscreen canvas (`imgData.data` groups of four). -/
structure RGBA where
  r : ℕ
  g : ℕ
  b : ℕ
  a : ℕ
deriving DecidableEq, Repr

/-- A `THREE.Color`: three channels, each normalised to the range 0..1
(`new THREE.Color(r / 255, g / 255, b / 255)`). -/
structure Color3 where
  r : ℚ
  g : ℚ
  b : ℚ
deriving DecidableEq, Repr

/-- `PixelInfo` from PixelArt.tsx: position (x, y, z) and a colour. -/
structure PixelInfo where
  x : ℚ
  y : ℚ
  z : ℚ
  color : Color3
deriving DecidableEq, Repr

/-- `ANIMATION_TIME = 3` (seconds). -/
def ANIMATION_TIME : ℚ := 3

/-- The opacity cut-off of the sampler: cells with `a < 30` are skipped. -/
def OPACITY_THRESHOLD : ℕ := 30

/-- The record pushed by `createPixelData` for the cell at column `x`, row `y`
of a `W × H` grid: position centred on the origin
(`x - targetWidth / 2`, `-y + targetHeight / 2`, `0`) and the colour
normalised per channel by 255. -/
def pixelRecord (W H : ℕ) (x y : ℕ) (c : RGBA) : PixelInfo :=
  { x := (x : ℚ) - (W : ℚ) / 2
    y := -(y : ℚ) + (H : ℚ) / 2
    z := 0
    color := { r := (c.r : ℚ) / 255, g := (c.g : ℚ) / 255, b := (c.b : ℚ) / 255 } }

/-- The pure core of `createPixelData`: given the per-cell RGBA data read back
from the canvas (`data x y` is the sample at column `x`, row `y`), loop over
rows `y = 0..H-1` and, inside each row, columns `x = 0..W-1`; skip cells with
`a < 30`; push a `pixelRecord` for every remaining cell. -/
def createPixelData (data : ℕ → ℕ → RGBA) (W H : ℕ) : List PixelInfo :=
  (List.range H).flatMap fun y =>
    (List.range W).filterMap fun x =>
      let c := data x y
      if c.a < OPACITY_THRESHOLD then none
      else some (pixelRecord W H x y c)

/-- Characterisation of the sampler's output: a record is emitted exactly for
the in-range cells whose alpha clears the threshold. -/
lemma mem_createPixelData {data : ℕ → ℕ → RGBA} {W H : ℕ} {p : PixelInfo} :
    p ∈ createPixelData data W H ↔
      ∃ x y, x < W ∧ y < H ∧ OPACITY_THRESHOLD ≤ (data x y).a ∧
        p = pixelRecord W H x y (data x y) := by
  unfold createPixelData
  simp only [List.mem_flatMap, List.mem_filterMap, List.mem_range]
  constructor
  · rintro ⟨y, hy, x, hx, hpx⟩
    by_cases hc : (data x y).a < OPACITY_THRESHOLD
    · simp [hc] at hpx
    · simp [hc] at hpx
      exact ⟨x, y, hx, hy, Nat.le_of_not_lt hc, hpx.symm⟩
  · rintro ⟨x, y, hx, hy, ha, hp⟩
    refine ⟨y, hy, x, hx, ?_⟩
    have hc : ¬ (data x y).a < OPACITY_THRESHOLD := Nat.not_lt.mpr ha
    simp [hc, hp]

/-- The sampler emits at most one record per cell. -/
lemma length_createPixelData_le (data : ℕ → ℕ → RGBA) (W H : ℕ) :
    (createPixelData data W H).length ≤ W * H := by
  unfold createPixelData
  rw [List.length_flatMap]
  have hbound : ∀ n ∈ (List.range H).map
      (fun y => ((List.range W).filterMap fun x =>
        let c := data x y
        if c.a < OPACITY_THRESHOLD then none
        else some (pixelRecord W H x y c)).length), n ≤ W := by
    intro n hn
    simp only [List.mem_map, List.mem_range] at hn
    obtain ⟨y, _, hy⟩ := hn
    calc n = _ := hy.symm
    _ ≤ (List.range W).length := List.length_filterMap_le _ _
    _ = W := List.length_range W
  calc ((List.range H).map _).sum
      ≤ ((List.range H).map (fun y => ((List.range W).filterMap fun x =>
          let c := data x y
          if c.a < OPACITY_THRESHOLD then none
          else some (pixelRecord W H x y c)).length)).length * W := by
        exact List.sum_le_card_nsmul _ W hbound
    _ = H * W := by simp
    _ = W * H := Nat.mul_comm H W

/-- C1: For every input image and target grid size `W × H`, `createPixelData`
returns at most `W * H` records, and every returned record corresponds to an
in-range cell whose alpha at capture time was at least the opacity threshold
(alpha ≥ 30); cells with alpha below the threshold yield no record. -/
theorem createPixelData_sound (data : ℕ → ℕ → RGBA) (W H : ℕ) :
    (createPixelData data W H).length ≤ W * H ∧
      ∀ p ∈ createPixelData data W H,
        ∃ x y, x < W ∧ y < H ∧ OPACITY_THRESHOLD ≤ (data x y).a ∧
          p = pixelRecord W H x y (data x y) := by
  refine ⟨length_createPixelData_le data W H, ?_⟩
  intro p hp
  exact mem_createPixelData.mp hp

/-- A 2×2 test image: opaque red at (0,0), opaque green at (1,0), opaque blue
at (0,1) and transparent black at (1,1). -/
def data2x2 : ℕ → ℕ → RGBA := fun x y =>
  if x = 0 ∧ y = 0 then ⟨255, 0, 0, 255⟩
  else if x = 1 ∧ y = 0 then ⟨0, 255, 0, 255⟩
  else if x = 0 ∧ y = 1 then ⟨0, 0, 255, 255⟩
  else ⟨0, 0, 0, 0⟩

/-- C1 witness: the bound and the per-record characterisation, instantiated at
the concrete 2×2 test image. -/
theorem createPixelData_sound_witness :
    (createPixelData data2x2 2 2).length ≤ 2 * 2 ∧
      ∀ p ∈ createPixelData data2x2 2 2,
        ∃ x y, x < 2 ∧ y < 2 ∧ OPACITY_THRESHOLD ≤ (data2x2 x y).a ∧
          p = pixelRecord 2 2 x y (data2x2 x y) :=
  createPixelData_sound data2x2 2 2

/-- C3: the 2×2 red/green/blue/transparent image yields exactly 3 records —
the transparent cell is dropped — and the red, green and blue cells each yield
a record carrying their colour normalised to 0..1 per channel. -/
theorem createPixelData_2x2_example :
    (createPixelData data2x2 2 2).length = 3 ∧
      createPixelData data2x2 2 2 =
        [{ x := -1, y := 1, z := 0, color := { r := 1, g := 0, b := 0 } },
         { x := 0, y := 1, z := 0, color := { r := 0, g := 1, b := 0 } },
         { x := -1, y := 0, z := 0, color := { r := 0, g := 0, b := 1 } }] := by
  have hr : List.range 2 = [0, 1] := rfl
  constructor
  · rfl
  · norm_num [createPixelData, data2x2, pixelRecord, OPACITY_THRESHOLD, hr,
      List.flatMap_cons, List.flatMap_nil, List.filterMap_cons, List.filterMap_nil]

/-- A uniformly opaque-red test image. -/
def dataRed : ℕ → ℕ → RGBA := fun _ _ => ⟨255, 0, 0, 255⟩

/-- C2 counterexample: for the 1×1 fully opaque image, the single (full-row)
emitted x position is `-1/2`, and no record has x position `1/2`; the set of
emitted x positions of a full row is therefore not symmetric about the
origin. -/
theorem createPixelData_x_not_origin_symmetric :
    ¬ ∀ p ∈ createPixelData dataRed 1 1,
        ∃ q ∈ createPixelData dataRed 1 1, q.x = -p.x := by
  have h1 : createPixelData dataRed 1 1 =
      [{ x := -(1 / 2 : ℚ), y := 1 / 2, z := 0, color := { r := 1, g := 0, b := 0 } }] := by
    norm_num [createPixelData, dataRed, pixelRecord, OPACITY_THRESHOLD,
      show List.range 1 = [0] from rfl,
      List.flatMap_cons, List.flatMap_nil, List.filterMap_cons, List.filterMap_nil]
  rw [h1]
  intro h
  obtain ⟨q, hq, hqx⟩ :=
    h { x := -(1 / 2 : ℚ), y := 1 / 2, z := 0, color := { r := 1, g := 0, b := 0 } }
      (List.mem_singleton_self _)
  rw [List.mem_singleton] at hq
  rw [hq] at hqx
  norm_num at hqx

/-- C2 (amended): for an image all of whose cells clear the opacity threshold,
the emitted x positions of each full row are symmetric about `-1/2`, not about
the origin: every record at x position `p.x` has a mirror record at
`-1 - p.x` (in the same row). -/
theorem createPixelData_x_symmetric (data : ℕ → ℕ → RGBA) (W H : ℕ)
    (h : ∀ x y, OPACITY_THRESHOLD ≤ (data x y).a) :
    ∀ p ∈ createPixelData data W H,
      ∃ q ∈ createPixelData data W H, q.x = -1 - p.x := by
  intro p hp
  obtain ⟨x, y, hx, hy, _, hpx⟩ := mem_createPixelData.mp hp
  refine ⟨pixelRecord W H (W - 1 - x) y (data (W - 1 - x) y), ?_, ?_⟩
  · exact mem_createPixelData.mpr ⟨W - 1 - x, y, by omega, hy, h _ _, rfl⟩
  · rw [hpx]
    have hx1 : 1 + x ≤ W := by omega
    have hcast : ((W - 1 - x : ℕ) : ℚ) = (W : ℚ) - (1 + x) := by
      rw [Nat.sub_sub, Nat.cast_sub hx1]
      push_cast
      ring
    simp only [pixelRecord, hcast]
    ring

/-- C2 witness: the amended symmetry at the opaque-red 2×1 image. -/
theorem createPixelData_x_symmetric_witness :
    (∀ x y, OPACITY_THRESHOLD ≤ (dataRed x y).a) ∧
      ∀ p ∈ createPixelData dataRed 2 1,
        ∃ q ∈ createPixelData dataRed 2 1, q.x = -1 - p.x :=
  ⟨fun _ _ => by norm_num [dataRed, OPACITY_THRESHOLD],
   createPixelData_x_symmetric dataRed 2 1
     (fun _ _ => by norm_num [dataRed, OPACITY_THRESHOLD])⟩

/-- `ctx.drawImage(img, 0, 0, targetWidth, targetHeight)`: every cell of the
target `W × H` rectangle of the canvas is overwritten with the scaled image
sample; cells outside the rectangle keep whatever the canvas held before. -/
def drawImage (sample : ℕ → ℕ → RGBA) (W H : ℕ)
    (canvas : ℕ → ℕ → RGBA) : ℕ → ℕ → RGBA :=
  fun x y => if x < W ∧ y < H then sample x y else canvas x y

/-- The whole sampling pipeline of `createPixelData`, including the offscreen
canvas: starting from an arbitrary initial canvas contents `canvas0`, draw the
scaled image onto it, read the `W × H` rectangle back
(`ctx.getImageData(0, 0, targetWidth, targetHeight)`), and convert it to
records. -/
def runCreatePixelData (canvas0 sample : ℕ → ℕ → RGBA) (W H : ℕ) : List PixelInfo :=
  createPixelData (drawImage sample W H canvas0) W H

/-- The sampler only looks at in-range cells of the captured data. -/
lemma createPixelData_congr {d1 d2 : ℕ → ℕ → RGBA} {W H : ℕ}
    (h : ∀ x y, x < W → y < H → d1 x y = d2 x y) :
    createPixelData d1 W H = createPixelData d2 W H := by
  unfold createPixelData
  refine List.flatMap_congr ?_
  intro y hy
  rw [List.mem_range] at hy
  refine List.filterMap_congr ?_
  intro x hx
  rw [List.mem_range] at hx
  rw [h x y hx hy]

/-- C4: the sampler is idempotent — two invocations on the same per-cell RGBA
data and the same target size give the same output, whatever state the fresh
offscreen canvas starts in; in fact each invocation equals the pure function
of the scaled image sample alone. -/
theorem runCreatePixelData_deterministic (canvas0 canvas1 sample : ℕ → ℕ → RGBA)
    (W H : ℕ) :
    runCreatePixelData canvas0 sample W H = runCreatePixelData canvas1 sample W H ∧
      runCreatePixelData canvas0 sample W H = createPixelData sample W H := by
  have hpure : ∀ c : ℕ → ℕ → RGBA,
      runCreatePixelData c sample W H = createPixelData sample W H := by
    intro c
    unfold runCreatePixelData
    refine createPixelData_congr ?_
    intro x y hx hy
    simp [drawImage, hx, hy]
  exact ⟨(hpure canvas0).trans (hpure canvas1).symm, hpure canvas0⟩

/-- A 3D position (`THREE.Vector3`, as used for `children[i].position`). -/
structure Vec3 where
  x : ℚ
  y : ℚ
  z : ℚ
deriving DecidableEq, Repr

/-- The per-mount state of the `PixelGrid` component: the `pixels` prop array,
the `scales` React state, the refs (`scaleProgressRef`, `batchIndexRef`,
`prevFileChangeCountRef`, `lastAnimationRef`, `animationProgressRef`,
`scatterPositionsRef`), and the positions of the meshes under
`groupRef.current.children`. -/
structure GridState where
  pixels : List PixelInfo
  scales : List ℚ
  scaleProgress : ℚ
  batchIndex : ℕ
  prevFileChangeCount : ℕ
  lastAnimation : String
  animationProgress : ℚ
  scatter : List Vec3
  scene : List Vec3
deriving DecidableEq, Repr

/-- `for (let i = startIndex; i < endIndex; i++) newScales[i] = 1`, walking the
list with its running index `i`. -/
def setScalesFrom (startIndex endIndex : ℕ) : ℕ → List ℚ → List ℚ
  | _, [] => []
  | i, v :: rest =>
      (if startIndex ≤ i ∧ i < endIndex then 1 else v) ::
        setScalesFrom startIndex endIndex (i + 1) rest

/-- The batch write of the reveal animation: indices in
`[startIndex, endIndex)` are set to scale 1, the rest keep their value. -/
def setScalesRange (l : List ℚ) (startIndex endIndex : ℕ) : List ℚ :=
  setScalesFrom startIndex endIndex 0 l

/-- One tick of the reveal-animation `useFrame` callback of `PixelGrid`:
return unchanged once `batchIndexRef.current > pixels.length / pixelWidth`;
otherwise add `delta` to the accumulated time, and when it exceeds
`batchIndex * (ANIMATION_TIME / (pixels.length / pixelWidth))` set the scales
of the batch `[batchIndex * pixelWidth, min (batchIndex * pixelWidth +
pixelWidth) pixels.length)` to 1 and advance the batch counter. -/
def revealFrame (pixelWidth : ℕ) (s : GridState) (delta : ℚ) : GridState :=
  if (s.batchIndex : ℚ) > (s.pixels.length : ℚ) / (pixelWidth : ℚ) then s
  else if s.scaleProgress + delta >
      (s.batchIndex : ℚ) *
        (ANIMATION_TIME / ((s.pixels.length : ℚ) / (pixelWidth : ℚ))) then
    { s with
      scaleProgress := s.scaleProgress + delta
      scales := setScalesRange s.scales (s.batchIndex * pixelWidth)
        (min (s.batchIndex * pixelWidth + pixelWidth) s.pixels.length)
      batchIndex := s.batchIndex + 1 }
  else { s with scaleProgress := s.scaleProgress + delta }

/-- The `useEffect` of `PixelGrid` that fires when `fileChangeCount` changes
(rendered with the current `pixels` prop): reset every scale to 0, zero the
accumulated time and the batch counter, and record the new change count. -/
def revealReset (fileChangeCount : ℕ) (newPixels : List PixelInfo)
    (s : GridState) : GridState :=
  if fileChangeCount ≠ s.prevFileChangeCount then
    { s with
      pixels := newPixels
      scales := List.replicate newPixels.length 0
      scaleProgress := 0
      batchIndex := 0
      prevFileChangeCount := fileChangeCount }
  else { s with pixels := newPixels }

/-- The progress update of the displacement `useFrame` callback:
`if (p < 1) { p += delta / ANIMATION_TIME; if (p > 1) p = 1; }`. -/
def dispAdvance (p delta : ℚ) : ℚ :=
  if p < 1 then
    if p + delta / ANIMATION_TIME > 1 then 1 else p + delta / ANIMATION_TIME
  else p

/-- The displacement progress for this frame: the stored progress is first
reset to 0 when `animation` differs from `lastAnimationRef.current`, then
advanced by `dispAdvance`. -/
def dispProgress (animation : String) (s : GridState) (delta : ℚ) : ℚ :=
  dispAdvance (if animation ≠ s.lastAnimation then 0 else s.animationProgress) delta

/-- The target position written for one pixel, by animation mode.  `msin`
abstracts `Math.sin` on rational arguments; `smoothProgress` is the shaped
progress `Math.sin((progress * Math.PI) / 2)` computed by the caller.  In the
source, `0.3` scales the wave phase and `5` its amplitude. -/
def dispTarget (msin : ℚ → ℚ) (animation : String) (pixel : PixelInfo)
    (scat : Vec3) (progress smoothProgress : ℚ) : Vec3 :=
  if animation = "explosion_start" then
    { x := scat.x * smoothProgress + pixel.x * (1 - smoothProgress)
      y := scat.y * smoothProgress + pixel.y * (1 - smoothProgress)
      z := scat.z * smoothProgress + pixel.z * (1 - smoothProgress) }
  else if animation = "explosion_end" then
    { x := scat.x * (1 - smoothProgress) + pixel.x * smoothProgress
      y := scat.y * (1 - smoothProgress) + pixel.y * smoothProgress
      z := scat.z * (1 - smoothProgress) + pixel.z * smoothProgress }
  else if animation = "wave_start" then
    { x := pixel.x
      y := pixel.y
      z := msin ((pixel.x + pixel.z + progress * 10) * (3 / 10)) * 5 * smoothProgress }
  else if animation = "wave_end" then
    { x := pixel.x
      y := pixel.y
      z := msin ((pixel.x + pixel.z + (1 - progress) * 10) * (3 / 10)) * 5 *
        (1 - smoothProgress) }
  else { x := pixel.x, y := pixel.y, z := pixel.z }

/-- `groupRef.current?.children[i]?.position.set(...)` over the iteration of
`pixels.forEach`: child `i` receives `target i` when that write happens
(`target i = none` models an index with no corresponding pixel, which the
loop never visits); children beyond the loop keep their position. -/
def setPositions (target : ℕ → Option Vec3) : ℕ → List Vec3 → List Vec3
  | _, [] => []
  | i, v :: rest =>
      (match target i with
       | some t => t
       | none => v) :: setPositions target (i + 1) rest

/-- One tick of the displacement `useFrame` callback of `PixelGrid`: sync
`lastAnimationRef` (resetting progress on a mode change), do nothing further
in mode `"default"`, otherwise advance the progress, shape it through `smooth`
(abstracting `p ↦ Math.sin((p * Math.PI) / 2)`), and write each pixel's
target position onto the corresponding scene child. -/
def dispFrame (msin smooth : ℚ → ℚ) (animation : String) (s : GridState)
    (delta : ℚ) : GridState :=
  if animation = "default" then
    { s with
      lastAnimation := animation
      animationProgress :=
        if animation ≠ s.lastAnimation then 0 else s.animationProgress }
  else
    { s with
      lastAnimation := animation
      animationProgress := dispProgress animation s delta
      scene := setPositions (fun i =>
        (s.pixels.get? i).map fun pixel =>
          dispTarget msin animation pixel
            (s.scatter.getD i { x := 0, y := 0, z := 0 })
            (dispProgress animation s delta)
            (smooth (dispProgress animation s delta))) 0 s.scene }

/-- Index-wise description of `setScalesFrom`. -/
lemma setScalesFrom_getD (startIndex endIndex : ℕ) :
    ∀ (l : List ℚ) (i j : ℕ), j < l.length →
      (setScalesFrom startIndex endIndex i l).getD j 0 =
        if startIndex ≤ i + j ∧ i + j < endIndex then 1 else l.getD j 0 := by
  intro l
  induction l with
  | nil => intro i j h; simp at h
  | cons v rest ih =>
    intro i j h
    cases j with
    | zero => simp [setScalesFrom]
    | succ j =>
      have harith : i + (j + 1) = (i + 1) + j := by omega
      simp only [setScalesFrom, List.getD_cons_succ, harith]
      exact ih (i + 1) j (by simpa using h)

/-- Index-wise description of `setScalesRange`. -/
lemma setScalesRange_getD (l : List ℚ) (startIndex endIndex j : ℕ)
    (h : j < l.length) :
    (setScalesRange l startIndex endIndex).getD j 0 =
      if startIndex ≤ j ∧ j < endIndex then 1 else l.getD j 0 := by
  unfold setScalesRange
  rw [setScalesFrom_getD startIndex endIndex l 0 j h]
  simp

/-- Once past the last batch, a reveal frame is the identity. -/
lemma revealFrame_terminal (pixelWidth : ℕ) (s : GridState) (delta : ℚ)
    (h : (s.batchIndex : ℚ) > (s.pixels.length : ℚ) / (pixelWidth : ℚ)) :
    revealFrame pixelWidth s delta = s := by
  unfold revealFrame
  rw [if_pos h]

/-- C5: each reveal frame adds the elapsed `delta` to the progress
accumulator; when the accumulated time exceeds `batchIndex * (ANIMATION_TIME /
(pixels.length / pixelWidth))` the scales of the current batch are set to 1
and the batch counter advances by one, and otherwise the scales and the batch
counter are untouched; once the batch counter is past the batch count
(`batchIndex > pixels.length / pixelWidth`) a frame — and any further sequence
of frames — performs no work at all. -/
theorem revealFrame_spec (pixelWidth : ℕ) (s : GridState) (delta : ℚ)
    (hlen : s.scales.length = s.pixels.length) :
    ((s.batchIndex : ℚ) > (s.pixels.length : ℚ) / (pixelWidth : ℚ) →
      revealFrame pixelWidth s delta = s ∧
        ∀ deltas : List ℚ, deltas.foldl (revealFrame pixelWidth) s = s) ∧
    (¬ (s.batchIndex : ℚ) > (s.pixels.length : ℚ) / (pixelWidth : ℚ) →
      (revealFrame pixelWidth s delta).scaleProgress = s.scaleProgress + delta ∧
      (s.scaleProgress + delta >
          (s.batchIndex : ℚ) *
            (ANIMATION_TIME / ((s.pixels.length : ℚ) / (pixelWidth : ℚ))) →
        (revealFrame pixelWidth s delta).batchIndex = s.batchIndex + 1 ∧
        (revealFrame pixelWidth s delta).scales =
          setScalesRange s.scales (s.batchIndex * pixelWidth)
            (min (s.batchIndex * pixelWidth + pixelWidth) s.pixels.length) ∧
        ∀ i, s.batchIndex * pixelWidth ≤ i →
          i < min (s.batchIndex * pixelWidth + pixelWidth) s.pixels.length →
          (revealFrame pixelWidth s delta).scales.getD i 0 = 1) ∧
      (¬ s.scaleProgress + delta >
          (s.batchIndex : ℚ) *
            (ANIMATION_TIME / ((s.pixels.length : ℚ) / (pixelWidth : ℚ))) →
        (revealFrame pixelWidth s delta).batchIndex = s.batchIndex ∧
        (revealFrame pixelWidth s delta).scales = s.scales)) := by
  constructor
  · intro h
    refine ⟨revealFrame_terminal pixelWidth s delta h, ?_⟩
    intro deltas
    induction deltas with
    | nil => rfl
    | cons d ds ih =>
      rw [List.foldl_cons, revealFrame_terminal pixelWidth s d h]
      exact ih
  · intro h
    constructor
    · unfold revealFrame
      rw [if_neg h]
      split <;> rfl
    constructor
    · intro hthr
      have hstep : revealFrame pixelWidth s delta =
          { s with
            scaleProgress := s.scaleProgress + delta
            scales := setScalesRange s.scales (s.batchIndex * pixelWidth)
              (min (s.batchIndex * pixelWidth + pixelWidth) s.pixels.length)
            batchIndex := s.batchIndex + 1 } := by
        unfold revealFrame
        rw [if_neg h, if_pos hthr]
      refine ⟨by rw [hstep], by rw [hstep], ?_⟩
      intro i hlo hhi
      rw [hstep]
      show (setScalesRange s.scales (s.batchIndex * pixelWidth)
        (min (s.batchIndex * pixelWidth + pixelWidth) s.pixels.length)).getD i 0 = 1
      rw [setScalesRange_getD _ _ _ i (by omega)]
      simp [hlo, hhi]
    · intro hthr
      have hstep : revealFrame pixelWidth s delta =
          { s with scaleProgress := s.scaleProgress + delta } := by
        unfold revealFrame
        rw [if_neg h, if_neg hthr]
      rw [hstep]
      exact ⟨rfl, rfl⟩

/-- A plain white pixel record used to build concrete states. -/
def pxA : PixelInfo := { x := 0, y := 0, z := 0, color := { r := 1, g := 1, b := 1 } }

/-- A concrete `PixelGrid` state with two pixels, nothing revealed yet. -/
def stReveal0 : GridState :=
  { pixels := [pxA, pxA]
    scales := [0, 0]
    scaleProgress := 0
    batchIndex := 0
    prevFileChangeCount := 0
    lastAnimation := "default"
    animationProgress := 0
    scatter := [{ x := 7, y := 8, z := 9 }, { x := 4, y := 5, z := 6 }]
    scene := [{ x := 0, y := 0, z := 0 }, { x := 0, y := 0, z := 0 }] }

/-- `stReveal0` with the batch counter already past the batch count. -/
def stRevealDone : GridState := { stReveal0 with batchIndex := 3 }

/-- C5 witness: with two pixels and `pixelWidth = 1`, a first frame of one
second accumulates the delta, reveals batch 0 (cell 0 goes to scale 1) and
advances the batch counter; from batch counter 3 (past `2 / 1`) a frame
changes nothing. -/
theorem revealFrame_spec_witness :
    revealFrame 1 stRevealDone 1 = stRevealDone ∧
      (revealFrame 1 stReveal0 1).scaleProgress = stReveal0.scaleProgress + 1 ∧
      (revealFrame 1 stReveal0 1).batchIndex = stReveal0.batchIndex + 1 ∧
      (revealFrame 1 stReveal0 1).scales.getD 0 0 = 1 := by
  have hdone := revealFrame_spec 1 stRevealDone 1 rfl
  have h0 := revealFrame_spec 1 stReveal0 1 rfl
  have hguard : ¬ (stReveal0.batchIndex : ℚ) >
      (stReveal0.pixels.length : ℚ) / ((1 : ℕ) : ℚ) := by
    norm_num [stReveal0]
  have hthr : stReveal0.scaleProgress + 1 >
      (stReveal0.batchIndex : ℚ) *
        (ANIMATION_TIME / ((stReveal0.pixels.length : ℚ) / ((1 : ℕ) : ℚ))) := by
    norm_num [stReveal0]
  refine ⟨?_, (h0.2 hguard).1, ((h0.2 hguard).2.1 hthr).1, ?_⟩
  · refine (hdone.1 ?_).1
    norm_num [stRevealDone, stReveal0]
  · refine ((h0.2 hguard).2.1 hthr).2.2 0 ?_ ?_ <;> norm_num [stReveal0]

/-- C6: whenever the file-change counter differs from the recorded one, the
reset effect hides every cell (all scales become 0), zeroes the progress
accumulator and the batch counter, and records the new counter — so any
subsequent frame starts from the all-hidden state. -/
theorem revealReset_spec (fileChangeCount : ℕ) (newPixels : List PixelInfo)
    (s : GridState) (h : fileChangeCount ≠ s.prevFileChangeCount) :
    (revealReset fileChangeCount newPixels s).scales =
        List.replicate newPixels.length 0 ∧
      (∀ i, (revealReset fileChangeCount newPixels s).scales.getD i 0 = 0) ∧
      (revealReset fileChangeCount newPixels s).scaleProgress = 0 ∧
      (revealReset fileChangeCount newPixels s).batchIndex = 0 ∧
      (revealReset fileChangeCount newPixels s).prevFileChangeCount =
        fileChangeCount := by
  unfold revealReset
  rw [if_pos h]
  refine ⟨rfl, ?_, rfl, rfl, rfl⟩
  intro i
  show (List.replicate newPixels.length (0 : ℚ)).getD i 0 = 0
  rw [List.getD_eq_getElem?_getD, List.getElem?_replicate]
  split <;> rfl

/-- C6 witness: resetting `stReveal0` (recorded counter 0) with counter 1 and
a one-pixel array. -/
theorem revealReset_spec_witness :
    (revealReset 1 [pxA] stReveal0).scales = List.replicate 1 0 ∧
      (∀ i, (revealReset 1 [pxA] stReveal0).scales.getD i 0 = 0) ∧
      (revealReset 1 [pxA] stReveal0).scaleProgress = 0 ∧
      (revealReset 1 [pxA] stReveal0).batchIndex = 0 ∧
      (revealReset 1 [pxA] stReveal0).prevFileChangeCount = 1 := by
  have h := revealReset_spec 1 [pxA] stReveal0 (by norm_num [stReveal0])
  simpa using h

/-- C9: neither animation's frame callback stores anything back into the
`PixelInfo` array — a reveal frame and a displacement frame both leave the
sampled records (positions and colours) exactly as the sampler produced them,
writing animated display positions only to the scene objects. -/
theorem frames_preserve_pixels (msin smooth : ℚ → ℚ) (animation : String)
    (pixelWidth : ℕ) (s : GridState) (delta : ℚ) :
    (revealFrame pixelWidth s delta).pixels = s.pixels ∧
      (dispFrame msin smooth animation s delta).pixels = s.pixels := by
  constructor
  · unfold revealFrame
    split
    · rfl
    · split <;> rfl
  · unfold dispFrame
    split <;> rfl

/-- Index-wise description of `setPositions`. -/
lemma setPositions_getD (target : ℕ → Option Vec3) :
    ∀ (l : List Vec3) (i j : ℕ), j < l.length →
      (setPositions target i l).getD j { x := 0, y := 0, z := 0 } =
        match target (i + j) with
        | some t => t
        | none => l.getD j { x := 0, y := 0, z := 0 } := by
  intro l
  induction l with
  | nil => intro i j h; simp at h
  | cons v rest ih =>
    intro i j h
    cases j with
    | zero => simp [setPositions]
    | succ j =>
      have harith : i + (j + 1) = (i + 1) + j := by omega
      simp only [setPositions, List.getD_cons_succ, harith]
      exact ih (i + 1) j (by simpa using h)

/-- C10: during the wave modes, the position written to a scene child differs
from the pixel's rest position only in z — the x and y written each frame are
exactly the rest x and y of the corresponding sampled record, for every cell
and every frame. -/
theorem dispFrame_wave_only_z (msin smooth : ℚ → ℚ) (animation : String)
    (s : GridState) (delta : ℚ) (i : ℕ) (pixel : PixelInfo)
    (hanim : animation = "wave_start" ∨ animation = "wave_end")
    (hpx : s.pixels.get? i = some pixel)
    (hi : i < s.scene.length) :
    ((dispFrame msin smooth animation s delta).scene.getD i
        { x := 0, y := 0, z := 0 }).x = pixel.x ∧
      ((dispFrame msin smooth animation s delta).scene.getD i
        { x := 0, y := 0, z := 0 }).y = pixel.y := by
  have hne : ¬ animation = "default" := by
    rcases hanim with h | h <;> rw [h] <;> decide
  have hscene : (dispFrame msin smooth animation s delta).scene =
      setPositions (fun j =>
        (s.pixels.get? j).map fun p =>
          dispTarget msin animation p
            (s.scatter.getD j { x := 0, y := 0, z := 0 })
            (dispProgress animation s delta)
            (smooth (dispProgress animation s delta))) 0 s.scene := by
    unfold dispFrame
    rw [if_neg hne]
  rw [hscene, setPositions_getD _ s.scene 0 i hi]
  simp only [Nat.zero_add, hpx]
  rcases hanim with h | h <;> rw [h] <;> exact ⟨rfl, rfl⟩

/-- C10 witness: a wave frame on `stReveal0` writes cell 0's rest x and y. -/
theorem dispFrame_wave_only_z_witness :
    ((dispFrame (fun q => q) (fun q => q) "wave_start" stReveal0 1).scene.getD 0
        { x := 0, y := 0, z := 0 }).x = pxA.x ∧
      ((dispFrame (fun q => q) (fun q => q) "wave_start" stReveal0 1).scene.getD 0
        { x := 0, y := 0, z := 0 }).y = pxA.y :=
  dispFrame_wave_only_z (fun q => q) (fun q => q) "wave_start" stReveal0 1 0 pxA
    (Or.inl rfl) rfl (by norm_num [stReveal0])

/-- `controlExplosionAnimation` as the list of (delay in milliseconds, mode)
assignments it performs: the immediate `setAnimation("explosion_start")`
(delay 0) and the two `setTimeout` registrations at `ANIMATION_TIME * 1000`
and `ANIMATION_TIME * 2000` milliseconds. -/
def controlExplosionAnimation : List (ℚ × String) :=
  [(0, "explosion_start"),
   (ANIMATION_TIME * 1000, "explosion_end"),
   (ANIMATION_TIME * 2000, "default")]

/-- `controlWaveAnimation` as the list of (delay in milliseconds, mode)
assignments it performs. -/
def controlWaveAnimation : List (ℚ × String) :=
  [(0, "wave_start"),
   (ANIMATION_TIME * 1000, "wave_end"),
   (ANIMATION_TIME * 2000, "default")]

/-- C7: each trigger sets the corresponding start mode immediately, schedules
the matching end mode after exactly the animation duration
(`ANIMATION_TIME * 1000` ms) and idle (`"default"`) after exactly twice the
animation duration; exactly one scheduled assignment per trigger sets the mode
back to idle. -/
theorem animationSchedule_spec :
    controlExplosionAnimation =
      [(0, "explosion_start"), (ANIMATION_TIME * 1000, "explosion_end"),
       (2 * (ANIMATION_TIME * 1000), "default")] ∧
      controlWaveAnimation =
        [(0, "wave_start"), (ANIMATION_TIME * 1000, "wave_end"),
         (2 * (ANIMATION_TIME * 1000), "default")] ∧
      (controlExplosionAnimation.filter (fun e => e.2 == "default")).length = 1 ∧
      (controlWaveAnimation.filter (fun e => e.2 == "default")).length = 1 := by
  refine ⟨?_, ?_, rfl, rfl⟩ <;>
    norm_num [controlExplosionAnimation, controlWaveAnimation, ANIMATION_TIME]

/-- The result held by `ev.target?.result` when the `FileReader` fires:
a Data-URL string, an ArrayBuffer, or null. -/
inductive ReaderResult where
  | str : String → ReaderResult
  | buffer : ReaderResult
  | nullResult : ReaderResult
deriving DecidableEq, Repr

/-- The page-level UI state touched by `handleFileChange`. -/
structure UIState where
  tempPixelWidth : ℕ
  tempPixelHeight : ℕ
  pixelWidth : ℕ
  pixelHeight : ℕ
  imageSrc : Option String
deriving DecidableEq, Repr

/-- `handleFileChange`: with no selected file (`e.target.files?.[0]` absent)
it returns without doing anything; otherwise, once the reader fires, a
non-string result returns without doing anything, and a string result applies
the pending pixel size and sets the image source. -/
def handleFileChange (file : Option String) (result : ReaderResult)
    (s : UIState) : UIState :=
  match file with
  | none => s
  | some _ =>
    match result with
    | ReaderResult.str url =>
      { s with
        pixelWidth := s.tempPixelWidth
        pixelHeight := s.tempPixelHeight
        imageSrc := some url }
    | _ => s

/-- `createPixelData` including its context acquisition:
`canvas.getContext("2d")` may yield no context (`none`), in which case the
function throws `"No 2D context available"`; with a context the sampling runs
on the captured data and cannot fail. -/
def createPixelDataChecked (ctx : Option (ℕ → ℕ → RGBA)) (W H : ℕ) :
    Except String (List PixelInfo) :=
  match ctx with
  | none => Except.error "No 2D context available"
  | some data => Except.ok (createPixelData data W H)

/-- C8: sampling fails (throws) exactly when no 2D context is available, and
with a context it always succeeds; the file-selection handler is a silent
no-op both when no file is selected and when the reader result is not a
string. -/
theorem errorHandling_spec (ctx : Option (ℕ → ℕ → RGBA)) (W H : ℕ)
    (file : String) (result : ReaderResult) (s : UIState) :
    (ctx = none →
      createPixelDataChecked ctx W H = Except.error "No 2D context available") ∧
      (∀ data, ctx = some data →
        createPixelDataChecked ctx W H = Except.ok (createPixelData data W H)) ∧
      handleFileChange none result s = s ∧
      ((∀ url, result ≠ ReaderResult.str url) →
        handleFileChange (some file) result s = s) := by
  refine ⟨?_, ?_, rfl, ?_⟩
  · intro h
    rw [h]
    rfl
  · intro data h
    rw [h]
    rfl
  · intro h
    cases result with
    | str url => exact absurd rfl (h url)
    | buffer => rfl
    | nullResult => rfl

/-- C8 witness: the error on a missing context, the success on the trivially
transparent capture, and the two silent no-ops, at concrete inputs. -/
theorem errorHandling_spec_witness :
    (createPixelDataChecked none 2 2 = Except.error "No 2D context available") ∧
      (createPixelDataChecked (some data2x2) 2 2 =
        Except.ok (createPixelData data2x2 2 2)) ∧
      handleFileChange none ReaderResult.buffer
        { tempPixelWidth := 64, tempPixelHeight := 64, pixelWidth := 64,
          pixelHeight := 64, imageSrc := none } =
        { tempPixelWidth := 64, tempPixelHeight := 64, pixelWidth := 64,
          pixelHeight := 64, imageSrc := none } ∧
      handleFileChange (some "photo.png") ReaderResult.buffer
        { tempPixelWidth := 64, tempPixelHeight := 64, pixelWidth := 64,
          pixelHeight := 64, imageSrc := none } =
        { tempPixelWidth := 64, tempPixelHeight := 64, pixelWidth := 64,
          pixelHeight := 64, imageSrc := none } := by
  have h := errorHandling_spec none 2 2 "photo.png" ReaderResult.buffer
    { tempPixelWidth := 64, tempPixelHeight := 64, pixelWidth := 64,
      pixelHeight := 64, imageSrc := none }
  have h2 := errorHandling_spec (some data2x2) 2 2 "photo.png" ReaderResult.buffer
    { tempPixelWidth := 64, tempPixelHeight := 64, pixelWidth := 64,
      pixelHeight := 64, imageSrc := none }
  exact ⟨h.1 rfl, (h2.2.1 data2x2 rfl), h.2.2.1,
    h.2.2.2 (fun url hu => ReaderResult.noConfusion hu)⟩

end PixelArt
